import Mathlib

/-!
Verification of the finops-portal billing-record ingestion pipeline and its
aggregation query layer, shallowly embedded from the TypeScript source
(`src/app/api/upload/route.ts`, `src/app/api/spend/route.ts`,
`src/lib/prisma.ts`).

A parsed CSV row (as produced by a header-aware CSV parser) is modelled as a
record of optional string cells: `none` stands for a JS `undefined` (column
absent), `some s` for a present cell, possibly the empty string.  JS
truthiness on such values, the `||` fallback chain, and template-literal
interpolation of `undefined` are modelled explicitly.
-/

namespace FinOps

/-- JS truthiness of a `string | undefined` value: `undefined` and `""` are
falsy, every other string is truthy. -/
def truthy : Option String → Bool
  | none => false
  | some s => !(s == "")

/-- The JS `a || b` fallback on `string | undefined` values: returns `b`
exactly when `a` is falsy. -/
def jsOr (a b : Option String) : Option String :=
  if truthy a then a else b

/-- Template-literal interpolation of a `string | undefined` value:
JS renders `undefined` as the literal string `"undefined"`. -/
def interp : Option String → String
  | none => "undefined"
  | some s => s

/-- `nd.takesLead hay`: the character list `nd` is an initial segment of
`hay` (helper for JS `String.prototype.includes`). -/
def takesLead : List Char → List Char → Bool
  | [], _ => true
  | _ :: _, [] => false
  | a :: as, b :: bs => a == b && takesLead as bs

/-- `occursWithin nd hay`: `nd` occurs contiguously somewhere in `hay`. -/
def occursWithin (nd : List Char) : List Char → Bool
  | [] => takesLead nd []
  | c :: t => takesLead nd (c :: t) || occursWithin nd t

/-- Model of JS `hay.includes(nd)` on strings. -/
def includesSub (hay nd : String) : Bool :=
  occursWithin nd.toList hay.toList

/-- A raw parsed CSV row: every column the upload route consults, each a
`string | undefined` cell.  (`Papa.parse` with `header: true` yields string
values for present columns and `undefined` for absent ones.) -/
structure RawRow where
  date : Option String := none
  usage_start_time : Option String := none
  usage_date : Option String := none
  account_id : Option String := none
  project_id : Option String := none
  billing_account_id : Option String := none
  service : Option String := none
  service_description : Option String := none
  sku_description : Option String := none
  team : Option String := none
  owner : Option String := none
  department : Option String := none
  env : Option String := none
  environment : Option String := none
  stage : Option String := none
  cost_usd : Option String := none
  cost : Option String := none
  cost_amount : Option String := none
  deriving DecidableEq, Repr

/-- `row.date || row.usage_start_time || row.usage_date` -/
def normDate (r : RawRow) : Option String :=
  jsOr (jsOr r.date r.usage_start_time) r.usage_date

/-- `row.account_id || row.project_id || row.billing_account_id` -/
def normAccount (r : RawRow) : Option String :=
  jsOr (jsOr r.account_id r.project_id) r.billing_account_id

/-- `row.service || row.service_description || row.sku_description` -/
def normService (r : RawRow) : Option String :=
  jsOr (jsOr r.service r.service_description) r.sku_description

/-- `row.team || row.owner || row.department` -/
def normTeam (r : RawRow) : Option String :=
  jsOr (jsOr r.team r.owner) r.department

/-- `row.env || row.environment || row.stage` -/
def normEnv (r : RawRow) : Option String :=
  jsOr (jsOr r.env r.environment) r.stage

/-- `row.cost_usd || row.cost || row.cost_amount` -/
def normCost (r : RawRow) : Option String :=
  jsOr (jsOr r.cost_usd r.cost) r.cost_amount

/-- The validation gate `if (!date || !service || !cost_usd) continue;`:
a row survives iff the normalized date, service and cost are all truthy. -/
def valid (r : RawRow) : Bool :=
  truthy (normDate r) && truthy (normService r) && truthy (normCost r)

/-- The dedupe key template
``  `${date}_${cloud}_${account_or_project}_${service}_${team}_${env}_${cost_usd}`  ``
built from the raw (pre-default) normalized values; absent values
interpolate as `"undefined"`. -/
def fingerprint (cloud : String) (r : RawRow) : String :=
  interp (normDate r) ++ "_" ++ cloud ++ "_" ++ interp (normAccount r) ++ "_"
    ++ interp (normService r) ++ "_" ++ interp (normTeam r) ++ "_"
    ++ interp (normEnv r) ++ "_" ++ interp (normCost r)

/-- Value of a (non-empty) digit list read in base 10. -/
def digitsToNat (ds : List Char) : Nat :=
  ds.foldl (fun acc c => 10 * acc + (c.toNat - 48)) 0

/-- An exact decimal number `num / 10 ^ scale`, the value JS `parseFloat`
denotes on the pipeline's decimal cost strings. -/
structure Decimal where
  num : Int
  scale : Nat
  deriving DecidableEq, Repr

/-- The rational value of a `Decimal`. -/
def Decimal.toRat (d : Decimal) : ℚ := (d.num : ℚ) / 10 ^ d.scale

/-- Model of JS `parseFloat` over sign, integer digits and an optional
fraction, as exercised by the pipeline's cost strings; `none` models `NaN`.
(Exponent notation and `Infinity`, which no claim exercises, are not
modelled.) -/
def jsParseFloat (s : String) : Option Decimal :=
  let l := s.toList.dropWhile (fun c => c == ' ' || c == '\t' || c == '\n' || c == '\r')
  let sgn : Int := match l with
    | '-' :: _ => -1
    | _ => 1
  let l' := match l with
    | '-' :: t => t
    | '+' :: t => t
    | t => t
  let intDs := l'.takeWhile Char.isDigit
  let rest := l'.dropWhile Char.isDigit
  let fracDs := match rest with
    | '.' :: t => t.takeWhile Char.isDigit
    | _ => []
  if intDs.isEmpty && fracDs.isEmpty then none
  else some
    { num := sgn * ((digitsToNat intDs : Int) * 10 ^ fracDs.length + digitsToNat fracDs)
    , scale := fracDs.length }

/-- Model of JS `parseInt` in base 10 (sign, then leading decimal digits,
stopping at the first non-digit); `none` models `NaN`.  (Automatic
hexadecimal detection, which no claim exercises, is not modelled.) -/
def jsParseInt (s : String) : Option Int :=
  let l := s.toList.dropWhile (fun c => c == ' ' || c == '\t' || c == '\n' || c == '\r')
  let sgn : Int := match l with
    | '-' :: _ => -1
    | _ => 1
  let l' := match l with
    | '-' :: t => t
    | '+' :: t => t
    | t => t
  let ds := l'.takeWhile Char.isDigit
  if ds.isEmpty then none else some (sgn * (digitsToNat ds : Int))

/-- ASCII lowering of one character, as JS `toLowerCase` acts on the
ASCII range (the only range the cloud tokens live in). -/
def charLower (c : Char) : Char :=
  if 65 ≤ c.toNat ∧ c.toNat ≤ 90 then Char.ofNat (c.toNat + 32) else c

/-- Model of `fileName.toLowerCase()` (ASCII range). -/
def lowerStr (s : String) : String := ⟨s.data.map charLower⟩

/-- Cloud auto-detection from the lowercased filename:
`if (fileName.includes("gcp")) cloud = "gcp"; else if (fileName.includes("aws")) cloud = "aws";`
starting from the default `"aws"`. -/
def cloudOf (fileName : String) : String :=
  let lower := lowerStr fileName
  if includesSub lower "gcp" then "gcp"
  else if includesSub lower "aws" then "aws"
  else "aws"

/-- JS `a || "default"` on a `string | undefined` value, producing the
default when the value is falsy (used for the optional-field defaults in
`validRows.push`). -/
def orDefault (o : Option String) (d : String) : String :=
  match o with
  | none => d
  | some s => if s == "" then d else s

/-- A persisted `SpendRecord` as built by `validRows.push`.  `date_raw`
keeps the raw date string handed to `new Date(date)` (calendar parsing is
the JS runtime's, opaque to the pipeline); `cost_usd = none` models
`parseFloat` returning `NaN`. -/
structure SpendRecord where
  date_raw : String
  cloud : String
  account_or_project : String
  service : String
  team : String
  env : String
  cost_usd : Option Decimal
  dedupe_key : String
  deriving DecidableEq, Repr

/-- The record pushed onto `validRows` for a surviving row (the validation
gate guarantees `normDate`, `normService`, `normCost` are truthy strings, so
`getD ""` below merely unwraps them). -/
def mkRecord (cloud : String) (r : RawRow) : SpendRecord where
  date_raw := (normDate r).getD ""
  cloud := cloud
  account_or_project := orDefault (normAccount r) "unknown"
  service := (normService r).getD ""
  team := orDefault (normTeam r) "unassigned"
  env := orDefault (normEnv r) "prod"
  cost_usd := jsParseFloat ((normCost r).getD "")
  dedupe_key := fingerprint cloud r

/-- The validation/deduplication loop over the parsed rows: `seen` is the
set of fingerprints already taken in this batch; invalid rows and in-batch
duplicates are skipped, survivors are pushed in order. -/
def buildValidRows (cloud : String) : List String → List RawRow → List SpendRecord
  | _, [] => []
  | seen, r :: rs =>
    if valid r then
      if fingerprint cloud r ∈ seen then buildValidRows cloud seen rs
      else mkRecord cloud r :: buildValidRows cloud (fingerprint cloud r :: seen) rs
    else buildValidRows cloud seen rs

/-- `prisma.spendRecord.createMany({ data, skipDuplicates: true })` against
a store with a uniqueness constraint on `dedupe_key`: rows whose key is
already persisted are skipped, the rest are appended; returns the new store
and the inserted count (`result.count`). -/
def createMany : List SpendRecord → List SpendRecord → List SpendRecord × Nat
  | store, [] => (store, 0)
  | store, a :: l =>
    if a.dedupe_key ∈ store.map (fun x => x.dedupe_key) then
      createMany store l
    else
      let p := createMany (store ++ [a]) l
      (p.1, p.2 + 1)

/-- The two 400-class input errors of the upload route. -/
inductive UploadError where
  | emptyCsv
  | noValidRows
  deriving DecidableEq, Repr

/-- Both input errors are returned with HTTP status 400. -/
def statusOf : UploadError → Nat := fun _ => 400

/-- The success payload `{ message: ... (cloud detected), inserted, skipped }`. -/
structure UploadResult where
  cloud : String
  inserted : Nat
  skipped : Nat
  deriving DecidableEq, Repr

/-- The upload POST handler from the parsed rows onward: empty-file check,
cloud detection, validate/dedupe, no-valid-rows check, bulk insert with
skip-duplicates, and the `{ inserted, skipped: rows.length - count }`
summary.  Returns the response together with the resulting store (unchanged
on the error paths, where no insert is attempted). -/
def upload (store : List SpendRecord) (fileName : String) (rows : List RawRow) :
    Except UploadError UploadResult × List SpendRecord :=
  if rows.isEmpty then (.error .emptyCsv, store)
  else
    let cloud := cloudOf fileName
    let validRows := buildValidRows cloud [] rows
    if validRows.isEmpty then (.error .noValidRows, store)
    else
      let p := createMany store validRows
      (.ok { cloud := cloud, inserted := p.2, skipped := rows.length - p.2 }, p.1)

/-- A `SpendRecord` row as read back from the relational store by the
aggregation endpoint: `date` is the stored timestamp as a scalar (only its
ordering matters to the queries), `team`/`env` are nullable TEXT columns. -/
structure DbRecord where
  date : Int
  cloud : String
  service : String
  team : Option String
  env : Option String
  cost_usd : ℚ
  deriving DecidableEq, Repr

/-- `parseInt(searchParams.get("range") || "30")`: the requested lookback
window in days; `none` models `NaN` from an unparsable value. -/
def resolveRange (p : Option String) : Option Int :=
  jsParseInt ((jsOr p (some "30")).getD "")

/-- The `date: { gte: startDate, lte: endDate }` clause.  `startD = none`
models an Invalid Date (`setDate(NaN)`), whose comparisons are all false. -/
def dateIn (startD : Option Int) (endD : Int) (d : Int) : Bool :=
  match startD with
  | none => false
  | some s => s ≤ d && d ≤ endD

/-- The dynamically built `where` clause: always the date window, plus an
equality filter for each of cloud/team/env that was supplied and non-empty
(`searchParams.get(..) || undefined` then `if (x) where.x = x`). -/
def matchesWhere (startD : Option Int) (endD : Int)
    (cloudP teamP envP : Option String) (r : DbRecord) : Bool :=
  dateIn startD endD r.date
    && (if truthy cloudP then r.cloud == cloudP.getD "" else true)
    && (if truthy teamP then r.team == some (teamP.getD "") else true)
    && (if truthy envP then r.env == some (envP.getD "") else true)

/-- `_sum: { cost_usd: true }` over a list of matching records. -/
def sumCost (l : List DbRecord) : ℚ :=
  (l.map (fun r => r.cost_usd)).sum

/-- `groupBy({ by: ["date"], _sum: { cost_usd }, where, orderBy: { date: "asc" } })`:
one `(date, summed cost)` pair per distinct date among the matching
records, ascending by date. -/
def dailySeries (records : List DbRecord) (w : DbRecord → Bool) : List (Int × ℚ) :=
  let ms := records.filter w
  (List.insertionSort (fun a b => a ≤ b) (ms.map (fun r => r.date)).dedup).map
    (fun d => (d, sumCost (ms.filter (fun r => r.date == d))))

/-- `groupBy({ by: ["service"], _sum: { cost_usd }, where, orderBy: { _sum: { cost_usd: "desc" } }, take: 5 })`:
per-service sums over the matching records, descending by sum, top 5
(tie order is the store's, unspecified; this model fixes one). -/
def topServices (records : List DbRecord) (w : DbRecord → Bool) : List (String × ℚ) :=
  let ms := records.filter w
  let pairs := ((ms.map (fun r => r.service)).dedup).map
    (fun s => (s, sumCost (ms.filter (fun r => r.service == s))))
  (List.insertionSort (fun a b => b.2 ≤ a.2) pairs).take 5

/-- The two filter-option queries:
`findMany({ where: { date: window }, select: { dim }, distinct: [dim] })`
followed by `.map(x => x.dim).filter(Boolean).sort()` — only the date
window restricts them, null/empty values are dropped, result sorted. -/
def availableDim (records : List DbRecord) (startD : Option Int) (endD : Int)
    (f : DbRecord → Option String) : List String :=
  let vals := ((records.filter (fun r => dateIn startD endD r.date)).map f).dedup
  List.insertionSort (fun a b => a ≤ b)
    ((vals.filter (fun o => truthy o)).map (fun o => o.getD ""))

/-- The spend GET response `{ daily, topServices, availableTeams, availableEnvs }`. -/
structure SpendResponse where
  daily : List (Int × ℚ)
  topServices : List (String × ℚ)
  availableTeams : List String
  availableEnvs : List String
  deriving DecidableEq, Repr

/-- The spend GET handler over a given store: resolve the range (default
30), compute the window `[today - range, today]`, build the `where` clause
from the optional filters, and run the four sub-queries. -/
def spendGET (records : List DbRecord) (today : Int)
    (rangeP cloudP teamP envP : Option String) : SpendResponse :=
  let range := resolveRange rangeP
  let startD := range.map (fun n => today - n)
  let w := matchesWhere startD today cloudP teamP envP
  { daily := dailySeries records w
  , topServices := topServices records w
  , availableTeams := availableDim records startD today (fun r => r.team)
  , availableEnvs := availableDim records startD today (fun r => r.env) }

/-- A thrown JS error as inspected by `withRetry`: its `.message` (when an
`Error`) and its `String(error)` rendering. -/
structure JsError where
  message : String
  asString : String
  deriving DecidableEq, Repr

/-- The connection-error classifier of `withRetry`: substring matches on
the message and on the stringified error (Prisma codes P1001/P1017). -/
def isConnectionError (e : JsError) : Bool :=
  includesSub e.message "connection" || includesSub e.message "ECONNREFUSED"
    || includesSub e.message "10054" || includesSub e.message "forcibly closed"
    || includesSub e.message "Closed" || includesSub e.asString "P1001"
    || includesSub e.asString "P1017"

/-- The retry loop of `withRetry` from a given attempt number (attempts are
1-based).  The wrapped operation is modelled as a function from the attempt
number to that attempt's outcome.  Returns the final outcome together with
the list of backoff delays slept (`initialDelay * 2 ^ (attempt - 1)` before
each retry).  A non-connection error, or a connection error on the last
allowed attempt, is thrown as-is with no further attempt. -/
def retryFrom {T : Type} (op : Nat → Except JsError T)
    (maxRetries initialDelay attempt : Nat) : Except JsError T × List Nat :=
  match op attempt with
  | .ok v => (.ok v, [])
  | .error e =>
    if h : isConnectionError e = true ∧ attempt < maxRetries then
      let p := retryFrom op maxRetries initialDelay (attempt + 1)
      (p.1, initialDelay * 2 ^ (attempt - 1) :: p.2)
    else (.error e, [])
termination_by maxRetries - attempt
decreasing_by omega

/-- `withRetry(operation, maxRetries, initialDelay)` (source defaults:
`maxRetries = 3`, `initialDelay = 500`), starting at attempt 1. -/
def withRetry {T : Type} (op : Nat → Except JsError T)
    (maxRetries initialDelay : Nat) : Except JsError T × List Nat :=
  retryFrom op maxRetries initialDelay 1

/-! ## Concrete sample data for witnesses and counterexamples -/

/-- Concrete two-row batch used to witness C1. -/
def wRows : List RawRow :=
  [{ date := some "2024-01-01", service := some "EC2", cost_usd := some "100.50" },
   { date := some "2024-01-01", service := some "S3", cost_usd := some "50.25" }]

/-- A row using AWS-style headers (`usage_start_time`, `service_description`,
`cost`) for the date/service/cost values, over arbitrary values in the
remaining columns. -/
def awsStyleRow (base : RawRow) (d s c : String) : RawRow :=
  { base with
    date := none, usage_start_time := some d, usage_date := none,
    service := none, service_description := some s, sku_description := none,
    cost_usd := none, cost := some c, cost_amount := none }

/-- A row using GCP-style headers (`usage_date`, `sku_description`,
`cost_amount`) for the same values, over the same remaining columns. -/
def gcpStyleRow (base : RawRow) (d s c : String) : RawRow :=
  { base with
    date := none, usage_start_time := none, usage_date := some d,
    service := none, service_description := none, sku_description := some s,
    cost_usd := none, cost := none, cost_amount := some c }

/-- A valid row whose raw cost string denotes a negative number. -/
def negCostRow : RawRow :=
  { date := some "2024-01-01", service := some "EC2", cost_usd := some "-5" }

/-- A valid row whose `team` column holds the literal text `"undefined"`. -/
def undefTeamRow : RawRow :=
  { date := some "2024-01-01", service := some "EC2", cost_usd := some "1",
    team := some "undefined" }

/-- The same row with the `team` column absent. -/
def noTeamRow : RawRow :=
  { date := some "2024-01-01", service := some "EC2", cost_usd := some "1" }

/-- A valid row whose raw cost string denotes a non-negative number. -/
def posCostRow : RawRow :=
  { date := some "2024-01-02", service := some "S3", cost_usd := some "2.50" }

/-- The raw cost string of a row parses (is not `NaN`) to a non-negative
value.  (The numerator sign decides the sign of `num / 10 ^ scale`.) -/
def costOk (r : RawRow) : Bool :=
  match jsParseFloat ((normCost r).getD "") with
  | some d => decide (0 ≤ d.num)
  | none => false

/-- A sample persisted record for the aggregation-endpoint witnesses. -/
def sampleDb : DbRecord :=
  { date := 4, cloud := "aws", service := "EC2", team := some "alpha",
    env := some "prod", cost_usd := 3 }

/-- A connection-classified error for the retry witnesses. -/
def cErr : JsError :=
  { message := "connection refused", asString := "Error: connection refused" }

/-! ## Helper lemmas about the pipeline -/

theorem mkRecord_dedupe_key (cloud : String) (r : RawRow) :
    (mkRecord cloud r).dedupe_key = fingerprint cloud r := rfl

theorem map_dedupe_key_map_mkRecord (cloud : String) (rows : List RawRow) :
    (rows.map (mkRecord cloud)).map (fun x => x.dedupe_key)
      = rows.map (fingerprint cloud) := by
  simp only [List.map_map]
  rfl

/-- Filtering out the invalid rows first does not change the surviving-row
list: invalid rows are skipped without touching `seen`. -/
theorem buildValidRows_filter (cloud : String) :
    ∀ (rows : List RawRow) (seen : List String),
      buildValidRows cloud seen (rows.filter (fun r => valid r))
        = buildValidRows cloud seen rows := by
  intro rows
  induction rows with
  | nil => intro seen; rfl
  | cons r rs ih =>
    intro seen
    by_cases hv : valid r = true
    · by_cases hk : fingerprint cloud r ∈ seen
      · simp [List.filter_cons, buildValidRows, hv, hk, ih]
      · simp [List.filter_cons, buildValidRows, hv, hk, ih]
    · simp [List.filter_cons, buildValidRows, hv, ih]

/-- Every surviving record comes from some valid row of the batch. -/
theorem mem_buildValidRows (cloud : String) :
    ∀ (rows : List RawRow) (seen : List String) (x : SpendRecord),
      x ∈ buildValidRows cloud seen rows →
      ∃ r, r ∈ rows ∧ valid r = true ∧ x = mkRecord cloud r := by
  intro rows
  induction rows with
  | nil => intro seen x h; simp [buildValidRows] at h
  | cons r rs ih =>
    intro seen x h
    by_cases hv : valid r = true
    · by_cases hk : fingerprint cloud r ∈ seen
      · simp only [buildValidRows, hv, if_true, hk, if_pos] at h
        obtain ⟨r', hr', hv', hx⟩ := ih _ _ h
        exact ⟨r', by simp [hr'], hv', hx⟩
      · simp only [buildValidRows, hv, if_true, hk, if_neg, not_false_iff,
          List.mem_cons] at h
        rcases h with h | h
        · exact ⟨r, by simp, hv, h⟩
        · obtain ⟨r', hr', hv', hx⟩ := ih _ _ h
          exact ⟨r', by simp [hr'], hv', hx⟩
    · simp only [buildValidRows, hv, if_false, Bool.false_eq_true] at h
      obtain ⟨r', hr', hv', hx⟩ := ih _ _ h
      exact ⟨r', by simp [hr'], hv', hx⟩

/-- When every row is valid, the fingerprints are mutually distinct and none
of them was already seen, the loop keeps every row in order. -/
theorem buildValidRows_of_valid_nodup (cloud : String) :
    ∀ (rows : List RawRow) (seen : List String),
      (∀ r ∈ rows, valid r = true) →
      (rows.map (fingerprint cloud)).Nodup →
      (∀ r ∈ rows, fingerprint cloud r ∉ seen) →
      buildValidRows cloud seen rows = rows.map (mkRecord cloud) := by
  intro rows
  induction rows with
  | nil => intro seen _ _ _; rfl
  | cons r rs ih =>
    intro seen hval hnd hdisj
    have hv : valid r = true := hval r (by simp)
    have hk : fingerprint cloud r ∉ seen := hdisj r (by simp)
    have hnd' : (∀ x ∈ rs, ¬fingerprint cloud x = fingerprint cloud r)
        ∧ (rs.map (fingerprint cloud)).Nodup := by simpa using hnd
    simp only [buildValidRows, hv, if_true, hk, if_neg, not_false_iff,
      List.map_cons, List.cons.injEq, true_and]
    apply ih
    · intro a ha; exact hval a (by simp [ha])
    · exact hnd'.2
    · intro a ha
      simp only [List.mem_cons, not_or]
      exact ⟨hnd'.1 a ha, hdisj a (by simp [ha])⟩

/-- Bulk insert of rows with fresh, mutually distinct keys appends them all
and counts every one. -/
theorem createMany_of_disjoint :
    ∀ (l store : List SpendRecord),
      (∀ a ∈ l, a.dedupe_key ∉ store.map (fun x => x.dedupe_key)) →
      (l.map (fun x => x.dedupe_key)).Nodup →
      createMany store l = (store ++ l, l.length) := by
  intro l
  induction l with
  | nil => intro store _ _; simp [createMany]
  | cons a t ih =>
    intro store hdisj hnd
    have ha : a.dedupe_key ∉ store.map (fun x => x.dedupe_key) := hdisj a (by simp)
    have hnd' : (∀ x ∈ t, ¬x.dedupe_key = a.dedupe_key)
        ∧ (t.map (fun x => x.dedupe_key)).Nodup := by simpa using hnd
    have hrec : createMany (store ++ [a]) t = ((store ++ [a]) ++ t, t.length) := by
      apply ih
      · intro b hb
        simp only [List.map_append, List.mem_append, List.map_cons, List.map_nil,
          List.mem_singleton, not_or]
        exact ⟨fun hmem => hdisj b (by simp [hb]) hmem, hnd'.1 b hb⟩
      · exact hnd'.2
    simp [createMany, ha, hrec]

/-- Bulk insert of rows whose keys are all already persisted inserts
nothing and leaves the store unchanged. -/
theorem createMany_of_subset :
    ∀ (l store : List SpendRecord),
      (∀ a ∈ l, a.dedupe_key ∈ store.map (fun x => x.dedupe_key)) →
      createMany store l = (store, 0) := by
  intro l
  induction l with
  | nil => intro store _; simp [createMany]
  | cons a t ih =>
    intro store hsub
    have ha : a.dedupe_key ∈ store.map (fun x => x.dedupe_key) := hsub a (by simp)
    simp only [createMany, ha, if_pos]
    exact ih store (fun b hb => hsub b (by simp [hb]))

/-- The filter-option lists never contain the empty string (null/empty
dimension values are dropped by `filter(Boolean)`). -/
theorem ne_empty_of_mem_availableDim (records : List DbRecord)
    (startD : Option Int) (endD : Int) (f : DbRecord → Option String)
    (s : String) (hs : s ∈ availableDim records startD endD f) : s ≠ "" := by
  unfold availableDim at hs
  rw [List.mem_insertionSort] at hs
  obtain ⟨o, ho, rfl⟩ := List.mem_map.mp hs
  have ht : truthy o = true := (List.mem_filter.mp ho).2
  cases o with
  | none => simp [truthy] at ht
  | some str =>
    simp only [truthy, Bool.not_eq_true'] at ht
    simpa using ne_of_beq_false ht

/-- The filter-option lists are sorted. -/
theorem sorted_availableDim (records : List DbRecord) (startD : Option Int)
    (endD : Int) (f : DbRecord → Option String) :
    List.Sorted (fun a b => a ≤ b) (availableDim records startD endD f) :=
  List.sorted_insertionSort _ _

/-- On a run where every attempt from `a` through `mr` throws a
connection-classified error, the retry loop sleeps the doubling backoff
delays for attempts `a, …, mr - 1` and finally rethrows attempt `mr`'s
error. -/
theorem retryFrom_all_conn {T : Type} (op : Nat → Except JsError T)
    (e : Nat → JsError) (mr d : Nat) :
    ∀ (n a : Nat), mr - a = n → 1 ≤ a → a ≤ mr →
      (∀ k, a ≤ k → k ≤ mr → op k = .error (e k) ∧ isConnectionError (e k) = true) →
      retryFrom op mr d a
        = (.error (e mr), (List.range' a (mr - a)).map (fun k => d * 2 ^ (k - 1))) := by
  intro n
  induction n with
  | zero =>
    intro a hn h1 hle hall
    have ha : a = mr := by omega
    subst ha
    have hop := hall a le_rfl le_rfl
    have hnot : ¬(isConnectionError (e a) = true ∧ a < a) := by
      intro h; omega
    rw [retryFrom.eq_def, hop.1]
    dsimp only
    rw [dif_neg hnot]
    simp
  | succ n ih =>
    intro a hn h1 hle hall
    have hlt : a < mr := by omega
    have hop := hall a le_rfl (by omega)
    have ihres := ih (a + 1) (by omega) (by omega) (by omega)
      (fun k hk1 hk2 => hall k (by omega) hk2)
    rw [retryFrom.eq_def, hop.1]
    dsimp only
    rw [dif_pos ⟨hop.2, hlt⟩]
    have hr : mr - a = (mr - (a + 1)) + 1 := by omega
    rw [hr, List.range'_succ]
    simp [ihres]

/-! ## Claim theorems -/

/-- C1: Re-upload idempotence.  For a file (with at least one parsed row)
all of whose rows are valid with mutually distinct fingerprints, uploading
into an empty store inserts every row (`inserted = N`, `skipped = 0`), and
uploading the byte-identical file again inserts nothing (`inserted = 0`,
`skipped = N`) and leaves the persisted records unchanged. -/
theorem upload_reupload_idempotence (fileName : String) (rows : List RawRow)
    (hne : rows ≠ [])
    (hval : ∀ r ∈ rows, valid r = true)
    (hnd : (rows.map (fingerprint (cloudOf fileName))).Nodup) :
    upload [] fileName rows
      = (.ok { cloud := cloudOf fileName, inserted := rows.length, skipped := 0 },
         rows.map (mkRecord (cloudOf fileName)))
    ∧ upload (rows.map (mkRecord (cloudOf fileName))) fileName rows
      = (.ok { cloud := cloudOf fileName, inserted := 0, skipped := rows.length },
         rows.map (mkRecord (cloudOf fileName))) := by
  have hbuild : buildValidRows (cloudOf fileName) [] rows
      = rows.map (mkRecord (cloudOf fileName)) :=
    buildValidRows_of_valid_nodup _ rows [] hval hnd (by intro r _; simp)
  have hkeys := map_dedupe_key_map_mkRecord (cloudOf fileName) rows
  have hemp : rows.isEmpty = false := by
    cases rows with
    | nil => exact absurd rfl hne
    | cons a l => rfl
  have hmapne : (rows.map (mkRecord (cloudOf fileName))).isEmpty = false := by
    cases rows with
    | nil => exact absurd rfl hne
    | cons a l => rfl
  constructor
  · have hcm : createMany [] (rows.map (mkRecord (cloudOf fileName)))
        = ([] ++ rows.map (mkRecord (cloudOf fileName)),
           (rows.map (mkRecord (cloudOf fileName))).length) := by
      apply createMany_of_disjoint
      · intro a _ h; simp at h
      · rw [hkeys]; exact hnd
    simp [upload, hemp, hbuild, hmapne, hcm]
  · have hcm : createMany (rows.map (mkRecord (cloudOf fileName)))
        (rows.map (mkRecord (cloudOf fileName)))
        = (rows.map (mkRecord (cloudOf fileName)), 0) := by
      apply createMany_of_subset
      intro a ha
      exact List.mem_map_of_mem _ ha
    simp [upload, hemp, hbuild, hmapne, hcm]

/-- C1 witness: the idempotence theorem applied to a concrete two-row file. -/
theorem upload_reupload_idempotence_witness :
    (wRows ≠ [] ∧ (∀ r ∈ wRows, valid r = true)
      ∧ (wRows.map (fingerprint (cloudOf "daily-costs.csv"))).Nodup)
    ∧ (upload [] "daily-costs.csv" wRows
        = (.ok { cloud := cloudOf "daily-costs.csv", inserted := wRows.length, skipped := 0 },
           wRows.map (mkRecord (cloudOf "daily-costs.csv")))
      ∧ upload (wRows.map (mkRecord (cloudOf "daily-costs.csv"))) "daily-costs.csv" wRows
        = (.ok { cloud := cloudOf "daily-costs.csv", inserted := 0, skipped := wRows.length },
           wRows.map (mkRecord (cloudOf "daily-costs.csv")))) :=
  ⟨⟨by decide, by decide, by decide⟩,
   upload_reupload_idempotence "daily-costs.csv" wRows (by decide) (by decide) (by decide)⟩

/-- C2: Validation gate.  A normalized value is falsy exactly when it is
absent or empty; a row is rejected exactly when its normalized date,
service or cost is falsy; and the surviving-row list handed to the bulk
insert is unchanged by first discarding all such rows — i.e. they never
reach persistence, regardless of the other fields. -/
theorem validation_gate_never_persists :
    (∀ o : Option String, truthy o = false ↔ (o = none ∨ o = some ""))
    ∧ (∀ r : RawRow, valid r = false ↔
        (truthy (normDate r) = false ∨ truthy (normService r) = false
          ∨ truthy (normCost r) = false))
    ∧ (∀ (cloud : String) (seen : List String) (rows : List RawRow),
        buildValidRows cloud seen rows
          = buildValidRows cloud seen (rows.filter (fun r => valid r))) := by
  refine ⟨?_, ?_, ?_⟩
  · intro o
    cases o with
    | none => simp [truthy]
    | some s => simp [truthy]
  · intro r
    unfold valid
    cases truthy (normDate r) <;> cases truthy (normService r)
      <;> cases truthy (normCost r) <;> simp
  · intro cloud seen rows
    exact (buildValidRows_filter cloud rows seen).symm

/-- C3: Cloud inference.  The cloud is computed once from the lowercased
filename — `"gcp"` iff it contains `"gcp"`, otherwise `"aws"` (whether it
contains `"aws"` or neither token) — and every record of the batch carries
that single value, in its `cloud` field and inside its fingerprint. -/
theorem cloud_inference_uniform (fileName : String) :
    (includesSub (lowerStr fileName) "gcp" = true → cloudOf fileName = "gcp")
    ∧ (includesSub (lowerStr fileName) "gcp" = false → cloudOf fileName = "aws")
    ∧ (∀ (rows : List RawRow) (seen : List String) (x : SpendRecord),
        x ∈ buildValidRows (cloudOf fileName) seen rows →
        x.cloud = cloudOf fileName
          ∧ ∃ r, r ∈ rows ∧ x.dedupe_key = fingerprint (cloudOf fileName) r) := by
  refine ⟨?_, ?_, ?_⟩
  · intro h; simp [cloudOf, h]
  · intro h
    simp only [cloudOf, h, Bool.false_eq_true, if_false]
    by_cases ha : includesSub (lowerStr fileName) "aws" = true
    · simp [ha]
    · simp [ha]
  · intro rows seen x hx
    obtain ⟨r, hr, _, rfl⟩ := mem_buildValidRows (cloudOf fileName) rows seen x hx
    exact ⟨rfl, r, hr, rfl⟩

/-- C3 witness: a filename containing "GCP" (case-insensitively) is
classified as gcp. -/
theorem cloud_inference_uniform_witness :
    includesSub (lowerStr "Team-GCP-March.csv") "gcp" = true
      ∧ cloudOf "Team-GCP-March.csv" = "gcp" :=
  ⟨by decide, (cloud_inference_uniform "Team-GCP-March.csv").1 (by decide)⟩

/-- C4: Column-mapping equivalence.  An AWS-style row and a GCP-style row
carrying the same (non-empty) date/service/cost values over the same
remaining columns normalize to the same six canonical raw fields, have the
same validation verdict, the same fingerprint under any cloud, and build
the very same canonical record; the cloud argument itself comes from the
filename alone, never from the headers. -/
theorem column_mapping_equivalence (base : RawRow) (d s c : String)
    (hd : d ≠ "") (hs : s ≠ "") (hc : c ≠ "") :
    normDate (awsStyleRow base d s c) = normDate (gcpStyleRow base d s c)
    ∧ normAccount (awsStyleRow base d s c) = normAccount (gcpStyleRow base d s c)
    ∧ normService (awsStyleRow base d s c) = normService (gcpStyleRow base d s c)
    ∧ normTeam (awsStyleRow base d s c) = normTeam (gcpStyleRow base d s c)
    ∧ normEnv (awsStyleRow base d s c) = normEnv (gcpStyleRow base d s c)
    ∧ normCost (awsStyleRow base d s c) = normCost (gcpStyleRow base d s c)
    ∧ valid (awsStyleRow base d s c) = valid (gcpStyleRow base d s c)
    ∧ (∀ cloud, fingerprint cloud (awsStyleRow base d s c)
        = fingerprint cloud (gcpStyleRow base d s c))
    ∧ (∀ cloud, mkRecord cloud (awsStyleRow base d s c)
        = mkRecord cloud (gcpStyleRow base d s c))
    ∧ (∀ fn, (mkRecord (cloudOf fn) (awsStyleRow base d s c)).cloud = cloudOf fn
        ∧ (mkRecord (cloudOf fn) (gcpStyleRow base d s c)).cloud = cloudOf fn) := by
  have h1 : normDate (awsStyleRow base d s c) = normDate (gcpStyleRow base d s c) := by
    simp [normDate, awsStyleRow, gcpStyleRow, jsOr, truthy, hd]
  have h2 : normAccount (awsStyleRow base d s c) = normAccount (gcpStyleRow base d s c) := rfl
  have h3 : normService (awsStyleRow base d s c) = normService (gcpStyleRow base d s c) := by
    simp [normService, awsStyleRow, gcpStyleRow, jsOr, truthy, hs]
  have h4 : normTeam (awsStyleRow base d s c) = normTeam (gcpStyleRow base d s c) := rfl
  have h5 : normEnv (awsStyleRow base d s c) = normEnv (gcpStyleRow base d s c) := rfl
  have h6 : normCost (awsStyleRow base d s c) = normCost (gcpStyleRow base d s c) := by
    simp [normCost, awsStyleRow, gcpStyleRow, jsOr, truthy, hc]
  refine ⟨h1, h2, h3, h4, h5, h6, ?_, ?_, ?_, ?_⟩
  · simp [valid, h1, h3, h6]
  · intro cloud
    simp [fingerprint, h1, h2, h3, h4, h5, h6]
  · intro cloud
    simp [mkRecord, fingerprint, h1, h2, h3, h4, h5, h6]
  · intro fn
    exact ⟨rfl, rfl⟩

/-- C4 witness: the equivalence at concrete values. -/
theorem column_mapping_equivalence_witness :
    (("2024-01-01" : String) ≠ "" ∧ ("EC2" : String) ≠ "" ∧ ("9.99" : String) ≠ "")
    ∧ (∀ cloud, mkRecord cloud (awsStyleRow {} "2024-01-01" "EC2" "9.99")
        = mkRecord cloud (gcpStyleRow {} "2024-01-01" "EC2" "9.99")) :=
  ⟨⟨by decide, by decide, by decide⟩,
   (column_mapping_equivalence {} "2024-01-01" "EC2" "9.99"
      (by decide) (by decide) (by decide)).2.2.2.2.2.2.2.2.1⟩

/-- C10: Fingerprint stringification of absent fields.  An absent optional
value interpolates into the dedupe key as the literal `"undefined"`, so a
row whose team column textually reads `"undefined"` collides with an
otherwise-equal row whose team column is missing, and within one batch the
later of the two is dropped as an in-batch duplicate. -/
theorem fingerprint_undefined_collision (cloud : String) (r r' : RawRow)
    (ht : normTeam r = some "undefined") (ht' : normTeam r' = none)
    (hd : normDate r = normDate r') (ha : normAccount r = normAccount r')
    (hs : normService r = normService r') (he : normEnv r = normEnv r')
    (hc : normCost r = normCost r') (hv : valid r = true) :
    interp (normTeam r') = "undefined"
    ∧ fingerprint cloud r = fingerprint cloud r'
    ∧ buildValidRows cloud [] [r, r'] = [mkRecord cloud r] := by
  have hfp : fingerprint cloud r = fingerprint cloud r' := by
    simp [fingerprint, hd, ha, hs, he, hc, ht, ht', interp]
  have hv' : valid r' = true := by
    unfold valid at hv ⊢
    rw [← hd, ← hs, ← hc]
    exact hv
  refine ⟨by simp [ht', interp], hfp, ?_⟩
  simp only [buildValidRows, hv, if_true, List.not_mem_nil, if_neg, not_false_iff,
    hv', hfp, List.mem_singleton, if_pos]

/-- C10 witness: a concrete batch where the textual `"undefined"` team and
the absent team collide and the second row is dropped. -/
theorem fingerprint_undefined_collision_witness :
    (normTeam undefTeamRow = some "undefined" ∧ normTeam noTeamRow = none
      ∧ normDate undefTeamRow = normDate noTeamRow
      ∧ normAccount undefTeamRow = normAccount noTeamRow
      ∧ normService undefTeamRow = normService noTeamRow
      ∧ normEnv undefTeamRow = normEnv noTeamRow
      ∧ normCost undefTeamRow = normCost noTeamRow
      ∧ valid undefTeamRow = true)
    ∧ (interp (normTeam noTeamRow) = "undefined"
      ∧ fingerprint "aws" undefTeamRow = fingerprint "aws" noTeamRow
      ∧ buildValidRows "aws" [] [undefTeamRow, noTeamRow] = [mkRecord "aws" undefTeamRow]) :=
  ⟨⟨by decide, by decide, by decide, by decide, by decide, by decide, by decide, by decide⟩,
   fingerprint_undefined_collision "aws" undefTeamRow noTeamRow
     (by decide) (by decide) (by decide) (by decide) (by decide) (by decide)
     (by decide) (by decide)⟩

/-- C6: Upload error outcomes.  The empty-CSV 400 error is returned exactly
when the parsed row set is empty; the distinct no-valid-rows 400 error is
returned exactly when rows were parsed but none survived validation and
in-batch deduplication; in both error cases the persisted store is
unchanged (no bulk insert happens). -/
theorem upload_error_outcomes (store : List SpendRecord) (fileName : String)
    (rows : List RawRow) :
    ((upload store fileName rows).1 = .error .emptyCsv ↔ rows = [])
    ∧ ((upload store fileName rows).1 = .error .noValidRows
        ↔ (rows ≠ [] ∧ buildValidRows (cloudOf fileName) [] rows = []))
    ∧ (∀ e, (upload store fileName rows).1 = .error e
        → (upload store fileName rows).2 = store)
    ∧ statusOf .emptyCsv = 400 ∧ statusOf .noValidRows = 400
    ∧ UploadError.emptyCsv ≠ UploadError.noValidRows := by
  by_cases hr : rows = []
  · subst hr
    refine ⟨by simp [upload], by simp [upload], ?_, rfl, rfl, by simp⟩
    intro e _
    simp [upload]
  · have hemp : rows.isEmpty = false := by
      cases rows with
      | nil => exact absurd rfl hr
      | cons a l => rfl
    by_cases hv : buildValidRows (cloudOf fileName) [] rows = []
    · refine ⟨?_, ?_, ?_, rfl, rfl, by simp⟩
      · simp [upload, hemp, hv, hr]
      · simp [upload, hemp, hv, hr]
      · intro e _
        simp [upload, hemp, hv]
    · have hvne : (buildValidRows (cloudOf fileName) [] rows).isEmpty = false := by
        cases h : buildValidRows (cloudOf fileName) [] rows with
        | nil => exact absurd h hv
        | cons a l => rfl
      refine ⟨?_, ?_, ?_, rfl, rfl, by simp⟩
      · simp [upload, hemp, hvne, hr]
      · simp [upload, hemp, hvne, hr, hv]
      · intro e he
        simp [upload, hemp, hvne] at he

/-- C6 witness: the empty-file error path applied concretely leaves the
store untouched. -/
theorem upload_error_outcomes_witness :
    (upload ([] : List SpendRecord) "a.csv" ([] : List RawRow)).2 = [] :=
  (upload_error_outcomes [] "a.csv" []).2.2.1 .emptyCsv rfl

/-- C7 counterexample: the row with raw cost `"-5"` passes the
presence-based validation and is persisted with the strictly negative
cost value `-5`, refuting "every persisted record has non-negative
costUsd". -/
theorem persisted_cost_negative_cex :
    valid negCostRow = true
    ∧ (upload [] "bill-aws.csv" [negCostRow]).2
        = [mkRecord (cloudOf "bill-aws.csv") negCostRow]
    ∧ (mkRecord (cloudOf "bill-aws.csv") negCostRow).cost_usd
        = some { num := -5, scale := 0 }
    ∧ Decimal.toRat { num := -5, scale := 0 } < 0 := by
  refine ⟨by decide, by decide, by decide, ?_⟩
  norm_num [Decimal.toRat]

/-- C7 (amended): a record persisted by the pipeline has a non-negative
cost whenever its row's raw cost string parses to a non-negative number;
the pipeline itself never checks the sign (see the counterexample). -/
theorem persisted_cost_nonneg_amended (cloud : String) (seen : List String)
    (rows : List RawRow)
    (h : ∀ r ∈ rows, valid r = true → costOk r = true) :
    ∀ x ∈ buildValidRows cloud seen rows,
      ∃ d : Decimal, x.cost_usd = some d ∧ 0 ≤ Decimal.toRat d := by
  intro x hx
  obtain ⟨r, hr, hvr, rfl⟩ := mem_buildValidRows cloud rows seen x hx
  have hok := h r hr hvr
  unfold costOk at hok
  cases hparse : jsParseFloat ((normCost r).getD "") with
  | none => rw [hparse] at hok; simp at hok
  | some d =>
    rw [hparse] at hok
    have hnum : (0 : Int) ≤ d.num := by simpa using hok
    refine ⟨d, ?_, ?_⟩
    · show (mkRecord cloud r).cost_usd = some d
      simp [mkRecord, hparse]
    · unfold Decimal.toRat
      apply div_nonneg
      · exact_mod_cast hnum
      · positivity

/-- C7 witness: the amended theorem applied to a concrete batch with a
non-negative cost string. -/
theorem persisted_cost_nonneg_amended_witness :
    (∀ r ∈ [posCostRow], valid r = true → costOk r = true)
    ∧ (∃ d : Decimal, (mkRecord "aws" posCostRow).cost_usd = some d
        ∧ 0 ≤ Decimal.toRat d) :=
  ⟨by decide,
   persisted_cost_nonneg_amended "aws" [] [posCostRow] (by decide)
     (mkRecord "aws" posCostRow) (by decide)⟩

/-- C8 counterexample: the endpoint accepts `range=5` as-is — the window
length is 5, not one of {7, 30, 90}; observably, a record 6 days old is
outside the requested window but inside a 7-day one. -/
theorem range_window_cex :
    resolveRange (some "5") = some 5
    ∧ ¬((5 : Int) = 7 ∨ (5 : Int) = 30 ∨ (5 : Int) = 90)
    ∧ (spendGET [sampleDb] 10 (some "5") none none none).availableTeams = []
    ∧ (spendGET [sampleDb] 10 (some "7") none none none).availableTeams = ["alpha"] := by
  refine ⟨by decide, by decide, by decide, by decide⟩

/-- C8 (amended): the window length is `parseInt` of the range parameter
whenever one is supplied non-empty — unrestricted, not confined to
{7, 30, 90} — and is 30 days when the parameter is absent or empty. -/
theorem range_resolution (p : Option String) :
    (truthy p = false → resolveRange p = some 30)
    ∧ (∀ s, p = some s → truthy p = true → resolveRange p = jsParseInt s) := by
  constructor
  · intro h
    unfold resolveRange
    rw [show jsOr p (some "30") = some "30" from by simp [jsOr, h]]
    decide
  · intro s hp htr
    subst hp
    unfold resolveRange
    rw [show jsOr (some s) (some "30") = some s from by simp [jsOr, htr]]
    rfl

/-- C8 witness: an absent range parameter resolves to the 30-day default. -/
theorem range_resolution_witness : resolveRange none = some 30 :=
  (range_resolution none).1 rfl

/-- C5: Distinct-dimension queries.  The `availableTeams` and
`availableEnvs` lists are restricted only by the date window: supplying any
combination of cloud/team/env filters returns the same lists as supplying
none; null/empty values are excluded and the results are sorted. -/
theorem distinct_dimension_queries (records : List DbRecord) (today : Int)
    (rangeP cloudP teamP envP : Option String) :
    ((spendGET records today rangeP cloudP teamP envP).availableTeams
        = (spendGET records today rangeP none none none).availableTeams)
    ∧ ((spendGET records today rangeP cloudP teamP envP).availableEnvs
        = (spendGET records today rangeP none none none).availableEnvs)
    ∧ List.Sorted (fun a b => a ≤ b)
        (spendGET records today rangeP cloudP teamP envP).availableTeams
    ∧ List.Sorted (fun a b => a ≤ b)
        (spendGET records today rangeP cloudP teamP envP).availableEnvs
    ∧ (∀ s ∈ (spendGET records today rangeP cloudP teamP envP).availableTeams, s ≠ "")
    ∧ (∀ s ∈ (spendGET records today rangeP cloudP teamP envP).availableEnvs, s ≠ "") := by
  refine ⟨rfl, rfl, sorted_availableDim _ _ _ _, sorted_availableDim _ _ _ _, ?_, ?_⟩
  · intro s hs
    exact ne_empty_of_mem_availableDim _ _ _ _ s hs
  · intro s hs
    exact ne_empty_of_mem_availableDim _ _ _ _ s hs

/-- C5 witness: on a concrete store, the lists are filter-independent and a
member is non-empty. -/
theorem distinct_dimension_queries_witness :
    (spendGET [sampleDb] 10 (some "30") (some "gcp") (some "nobody") (some "dev")).availableTeams
        = (spendGET [sampleDb] 10 (some "30") none none none).availableTeams
    ∧ ("alpha" : String) ≠ "" :=
  ⟨(distinct_dimension_queries [sampleDb] 10 (some "30") (some "gcp") (some "nobody")
      (some "dev")).1,
   (distinct_dimension_queries [sampleDb] 10 (some "30") (some "gcp") (some "nobody")
      (some "dev")).2.2.2.2.1 "alpha" (by decide)⟩

/-- C9: Retry classification.  A non-connection-classified error on the
first attempt propagates immediately — no retry, no backoff sleep; when
every attempt throws a connection-classified error, the wrapper sleeps
`initialDelay * 2^0, 2^1, …` (doubling each attempt) before each of the
`maxRetries - 1` retries and then rethrows the last attempt's error. -/
theorem retry_classification {T : Type} (op : Nat → Except JsError T)
    (maxRetries initialDelay : Nat) :
    (∀ e, op 1 = .error e → isConnectionError e = false →
        withRetry op maxRetries initialDelay = (.error e, []))
    ∧ (∀ e : Nat → JsError, 1 ≤ maxRetries →
        (∀ k, 1 ≤ k → k ≤ maxRetries → op k = .error (e k)
          ∧ isConnectionError (e k) = true) →
        withRetry op maxRetries initialDelay
          = (.error (e maxRetries),
             (List.range (maxRetries - 1)).map (fun i => initialDelay * 2 ^ i))) := by
  constructor
  · intro e hop hconn
    have hnot : ¬(isConnectionError e = true ∧ 1 < maxRetries) := by
      intro h
      rw [hconn] at h
      exact absurd h.1 (by simp)
    unfold withRetry
    rw [retryFrom.eq_def, hop]
    dsimp only
    rw [dif_neg hnot]
  · intro e hmr hall
    unfold withRetry
    rw [retryFrom_all_conn op e maxRetries initialDelay (maxRetries - 1) 1
      (by omega) le_rfl hmr hall]
    rw [List.range'_eq_map_range, List.map_map]
    congr 1
    apply List.map_congr_left
    intro i _
    have h : 1 + i - 1 = i := by omega
    simp [Function.comp, h]

/-- C9 witness: with the source defaults (3 attempts, 500 ms base), an
operation that always throws a connection error yields delays 500 then
1000 and rethrows the error. -/
theorem retry_classification_witness :
    (1 ≤ 3 ∧ isConnectionError cErr = true)
    ∧ withRetry (fun _ : Nat => (.error cErr : Except JsError Nat)) 3 500
        = (.error cErr, (List.range 2).map (fun i => 500 * 2 ^ i)) :=
  ⟨⟨by decide, by decide⟩,
   (retry_classification (fun _ : Nat => (.error cErr : Except JsError Nat)) 3 500).2
     (fun _ => cErr) (by decide)
     (fun _ _ _ => ⟨rfl, (by decide : isConnectionError cErr = true)⟩)⟩

end FinOps
